import Mathlib

/-!
Verification of the overlay network driver core (docker/libnetwork,
drivers/overlay/ov_network.go) against its natural-language specification.

The Go source is shallowly embedded: pure helpers become Lean functions,
stateful operations become explicit state-passing functions, calls into the
environment (datastore, allocator, kernel) are driven by explicit result
parameters, and operations that may dereference nil or fail an unchecked
type assertion return an explicit `panics` outcome.
-/

namespace Overlay

/-! ## CIDR model

`types.ParseCIDR` / `net.IPNet.String` live outside the embedded file.
Modelled from the spec: a CIDR is an IPv4 address (32-bit) plus a prefix
length, printed as dotted-quad `"a.b.c.d/n"`; parsing masks the address to
the prefix (canonicalisation), as `types.ParseCIDR` does. Strings are
carried as `List Char` so that everything evaluates in the kernel. -/

structure Cidr where
  addr : Nat
  maskLen : Nat
deriving DecidableEq, Repr

def natDigitsAux : Nat → Nat → List Char
  | 0, _ => []
  | fuel+1, n =>
    if n < 10 then [Char.ofNat (48 + n)]
    else natDigitsAux fuel (n / 10) ++ [Char.ofNat (48 + n % 10)]

/-- Decimal rendering of a natural number as characters. -/
def natChars (n : Nat) : List Char := natDigitsAux (n + 1) n

/-- Dotted-quad rendering of a `Cidr`, as `net.IPNet.String` produces. -/
def cidrChars (c : Cidr) : List Char :=
  natChars (c.addr / 16777216 % 256) ++ ['.'] ++
  natChars (c.addr / 65536 % 256) ++ ['.'] ++
  natChars (c.addr / 256 % 256) ++ ['.'] ++
  natChars (c.addr % 256) ++ ['/'] ++ natChars c.maskLen

/-- Rendering of a possibly-nil `*net.IPNet`: Go prints `<nil>` for nil. -/
def cidrOptChars : Option Cidr → List Char
  | none => ['<', 'n', 'i', 'l', '>']
  | some c => cidrChars c

def splitOnChar (sep : Char) : List Char → List (List Char)
  | [] => [[]]
  | c :: rest =>
    let r := splitOnChar sep rest
    if c = sep then [] :: r
    else match r with
      | [] => [[c]]
      | g :: gs => (c :: g) :: gs

def parseDecimalAux : List Char → Nat → Option Nat
  | [], acc => some acc
  | c :: rest, acc =>
    if 48 ≤ c.toNat ∧ c.toNat ≤ 57 then
      parseDecimalAux rest (acc * 10 + (c.toNat - 48))
    else none

def parseDecimal : List Char → Option Nat
  | [] => none
  | cs => parseDecimalAux cs 0

/-- Modelled from the spec: `types.ParseCIDR` parses `"a.b.c.d/n"`
(octets ≤ 255, prefix ≤ 32). Unlike `net.ParseCIDR`, the repository's
`types.ParseCIDR` assigns the unmasked address back into the result
(`n.IP = ip`), so host bits are preserved. -/
def parseCIDR (s : List Char) : Option Cidr :=
  match splitOnChar '/' s with
  | [ipPart, maskPart] =>
    match splitOnChar '.' ipPart with
    | [oa, ob, oc, od] =>
      match parseDecimal oa, parseDecimal ob, parseDecimal oc,
            parseDecimal od, parseDecimal maskPart with
      | some a, some b, some c, some d, some m =>
        if a ≤ 255 ∧ b ≤ 255 ∧ c ≤ 255 ∧ d ≤ 255 ∧ m ≤ 32 then
          some ⟨a * 16777216 + b * 65536 + c * 256 + d, m⟩
        else none
      | _, _, _, _, _ => none
    | _ => none
  | _ => none

/-! ## Subnet and network configuration -/

/-- The persisted/config part of a subnet: `subnetIP`, `gwIP` (nilable
pointers in Go, hence `Option`) and the VNI (`0` = unallocated). -/
structure SubnetConf where
  subnetIP : Option Cidr
  gwIP : Option Cidr
  vni : Nat
deriving DecidableEq, Repr

/-- `networkConfiguration`: ordered subnets plus the default-GW flag. -/
structure NetConf where
  subnets : List SubnetConf
  disableDefaultGW : Bool
deriving DecidableEq, Repr

/-! ## Subnet lookup helpers (`getSubnetforIP`, `getMatchingSubnet`)

Both take a `*net.IPNet`; a nil pointer is `none`. Dereferencing nil
(`ip.Mask.Size()` or `s.subnetIP.Mask.Size()` on nil) is a Go runtime
panic, surfaced as the `panics` outcome. -/

inductive LookupRes where
  | found (s : SubnetConf)
  | notFound
  | panics
deriving DecidableEq, Repr

/-- `(2^32 - 2^(32-len))`: the IPv4 mask with `len` leading one bits. -/
def maskBits (len : Nat) : Nat := 2 ^ 32 - 2 ^ (32 - len)

/-- `net.IPNet.Contains`: byte-wise `nn&m == ip&m`. -/
def cidrContains (net : Cidr) (ip : Nat) : Bool :=
  net.addr &&& maskBits net.maskLen = ip &&& maskBits net.maskLen

/-- `getSubnetforIP`: linear scan for a subnet with the same mask length
whose `subnetIP` contains `ip.IP`. There is no nil check on `ip`: the
first loop iteration dereferences it. -/
def getSubnetforIP (subnets : List SubnetConf) (ip : Option Cidr) : LookupRes :=
  match subnets with
  | [] => .notFound
  | s :: rest =>
    match s.subnetIP, ip with
    | none, _ => .panics
    | _, none => .panics
    | some sn, some ipn =>
      if sn.maskLen = ipn.maskLen ∧ cidrContains sn ipn.addr then .found s
      else getSubnetforIP rest ip

/-- `getMatchingSubnet`: returns nil immediately when `ip` is nil,
otherwise scans for equal mask length and equal `subnetIP.IP`. -/
def getMatchingSubnet (subnets : List SubnetConf) (ip : Option Cidr) : LookupRes :=
  match ip with
  | none => .notFound
  | some ipn =>
    match subnets with
    | [] => .notFound
    | s :: rest =>
      match s.subnetIP with
      | none => .panics
      | some sn =>
        if sn.maskLen = ipn.maskLen ∧ sn.addr = ipn.addr then .found s
        else getMatchingSubnet rest ip

/-! ## JSON model

Go's `encoding/json` is embedded at the level of parsed JSON values.
Numbers are naturals (vni is a `uint32`, exactly representable in a
`float64`); object keys appear in the order Go emits them (maps marshal
with keys sorted). Unchecked type assertions in the custom unmarshalers
surface as a `panics` outcome. -/

inductive JValue where
  | jnull
  | jbool (b : Bool)
  | jnum (n : Nat)
  | jstr (s : List Char)
  | jarr (xs : List JValue)
  | jobj (fields : List (List Char × JValue))

/-- Map lookup, as `nMap[key]` on the decoded `map[string]interface{}`:
a missing key yields the zero value (`none` here, nil interface in Go). -/
def jlookup (key : List Char) : List (List Char × JValue) → Option JValue
  | [] => none
  | (k, v) :: rest => if k = key then some v else jlookup key rest

def keyVni : List Char := ['v', 'n', 'i']
def keyGwIP : List Char := ['g', 'w', 'I', 'P']
def keySubnetIP : List Char := ['s', 'u', 'b', 'n', 'e', 't', 'I', 'P']
def keyDisableDefaultGW : List Char :=
  ['d', 'i', 's', 'a', 'b', 'l', 'e', 'D', 'e', 'f', 'a', 'u', 'l', 't', 'G', 'W']
def keySubnets : List Char := ['s', 'u', 'b', 'n', 'e', 't', 's']
def keyVniLegacy : List Char := ['V', 'n', 'i']
def keyGwIPLegacy : List Char := ['G', 'w', 'I', 'P']
def keySubnetIPLegacy : List Char := ['S', 'u', 'b', 'n', 'e', 't', 'I', 'P']

/-- `subnet.MarshalJSON`: `{"gwIP": ..., "subnetIP": ..., "vni": ...}`
(keys in Go's sorted map order). -/
def subnetMarshalJSON (s : SubnetConf) : JValue :=
  .jobj [(keyGwIP, .jstr (cidrOptChars s.gwIP)),
         (keySubnetIP, .jstr (cidrOptChars s.subnetIP)),
         (keyVni, .jnum s.vni)]

/-- `networkConfiguration.MarshalJSON` =
`{"disableDefaultGW": ..., "subnets": [...]}`. This is also `Value()`. -/
def ncMarshalJSON (nc : NetConf) : JValue :=
  .jobj [(keyDisableDefaultGW, .jbool nc.disableDefaultGW),
         (keySubnets, .jarr (nc.subnets.map subnetMarshalJSON))]

/-- Outcome of a decoding step: success, a returned error, or a Go
runtime panic (failed type assertion / nil dereference). -/
inductive DecRes (α : Type) where
  | ok (a : α)
  | err
  | panics
deriving DecidableEq, Repr

/-- `subnet.UnmarshalJSON`: unmarshal into a map (non-object input is an
error); `nMap["vni"].(float64)` and the two `.(string)` assertions panic
when the field is missing or of the wrong kind; `types.ParseCIDR` failures
are returned as errors. -/
def subnetUnmarshalJSON (v : JValue) : DecRes SubnetConf :=
  match v with
  | .jobj fields =>
    match jlookup keyVni fields with
    | some (.jnum n) =>
      match jlookup keyGwIP fields with
      | some (.jstr g) =>
        match parseCIDR g with
        | none => .err
        | some gw =>
          match jlookup keySubnetIP fields with
          | some (.jstr sn) =>
            match parseCIDR sn with
            | none => .err
            | some sub => .ok ⟨some sub, some gw, n⟩
          | _ => .panics
      | _ => .panics
    | _ => .panics
  | _ => .err

/-- Decoding `[]*subnet`: a JSON null leaves the slice nil (`ok []`), an
array decodes element-wise (null elements become nil pointers), anything
else is a type error. An element error aborts the `json.Unmarshal` call
with an error, keeping the elements decoded so far (the caller at
`networkConfiguration.UnmarshalJSON` ignores that error); an element
panic propagates. -/
def decodeSubnetPtrListAux : List JValue →
    DecRes (List (Option SubnetConf)) × List (Option SubnetConf)
  | [] => (.ok [], [])
  | x :: rest =>
    match x with
    | .jnull =>
      match decodeSubnetPtrListAux rest with
      | (.ok l, p) => (.ok (none :: l), none :: p)
      | (.err, p) => (.err, none :: p)
      | (.panics, p) => (.panics, p)
    | _ =>
      match subnetUnmarshalJSON x with
      | .panics => (.panics, [])
      | .err => (.err, [])
      | .ok s =>
        match decodeSubnetPtrListAux rest with
        | (.ok l, p) => (.ok (some s :: l), some s :: p)
        | (.err, p) => (.err, some s :: p)
        | (.panics, p) => (.panics, p)

/-- Result of `json.Unmarshal(sj, &subnets)` with the error Go returns
ignored by the caller: the list that ends up in `subnets`. `panics`
still propagates. -/
def decodeSubnetPtrList (v : JValue) : DecRes (List (Option SubnetConf)) :=
  match v with
  | .jnull => .ok []
  | .jarr xs =>
    match decodeSubnetPtrListAux xs with
    | (.panics, _) => .panics
    | (.ok l, _) => .ok l
    | (.err, p) => .ok p
  | _ => .ok []

/-- Intermediate decoded configuration: subnets are nilable pointers. -/
structure DecNc where
  subnets : List (Option SubnetConf)
  disableDefaultGW : Bool

/-- `networkConfiguration.UnmarshalJSON`: unmarshal into a map (non-object
is an error); `nMap["disableDefaultGW"].(bool)` panics when missing or
non-boolean; the subnets are re-marshalled and decoded with the error
ignored. -/
def ncUnmarshalJSON (v : JValue) : DecRes DecNc :=
  match v with
  | .jobj fields =>
    match jlookup keyDisableDefaultGW fields with
    | some (.jbool b) =>
      match decodeSubnetPtrList ((jlookup keySubnets fields).getD .jnull) with
      | .panics => .panics
      | .err => .err
      | .ok subs => .ok ⟨subs, b⟩
    | _ => .panics
  | _ => .err

/-- `json.Unmarshal(value, &nc)` with `nc : *networkConfiguration`:
JSON null sets the pointer to nil without invoking the unmarshaler. -/
def decodeNcPtr (v : JValue) : DecRes (Option DecNc) :=
  match v with
  | .jnull => .ok none
  | _ =>
    match ncUnmarshalJSON v with
    | .ok nc => .ok (some nc)
    | .err => .err
    | .panics => .panics

/-- Legacy-format decoding of one `*subnetJSON` record (a plain struct:
no custom unmarshaler, so no panics; a field of the wrong kind is a
returned error, a missing field keeps the zero value). The subsequent
`types.ParseCIDR` calls in `SetValue` ignore their errors, so the CIDR
fields may come out nil. `none` elements are nil pointers from JSON
nulls. -/
def decodeLegacyRec (v : JValue) : DecRes (Option SubnetConf) :=
  match v with
  | .jnull => .ok none
  | .jobj fields =>
    let subRaw := match jlookup keySubnetIPLegacy fields with
      | none => some ([] : List Char)
      | some (.jstr s) => some s
      | some _ => none
    let gwRaw := match jlookup keyGwIPLegacy fields with
      | none => some ([] : List Char)
      | some (.jstr s) => some s
      | some _ => none
    let vniRaw := match jlookup keyVniLegacy fields with
      | none => some 0
      | some (.jnum n) => some n
      | some _ => none
    match subRaw, gwRaw, vniRaw with
    | some sub, some gw, some n => .ok (some ⟨parseCIDR sub, parseCIDR gw, n⟩)
    | _, _, _ => .err
  | _ => .err

/-- Folding step for the legacy array decoding. -/
def legacyStep (x : JValue) (acc : DecRes (List (Option SubnetConf))) :
    DecRes (List (Option SubnetConf)) :=
  match decodeLegacyRec x, acc with
  | .ok s, .ok l => .ok (s :: l)
  | .panics, _ => .panics
  | _, .panics => .panics
  | _, _ => .err

/-- Legacy-format decoding of the whole value: a bare array of
records; any element error fails the whole `json.Unmarshal`. -/
def decodeLegacyList (v : JValue) : DecRes (List (Option SubnetConf)) :=
  match v with
  | .jarr xs => xs.foldr legacyStep (.ok [])
  | _ => .err

inductive SetValueRes where
  | ok (nc : NetConf)
  | err
  | panics
deriving DecidableEq, Repr

/-- The merge arm of `SetValue`'s loop: `getMatchingSubnet(subnetIP)` on
the existing subnets and, when found, overwrite only its `vni`. -/
def mergeVni (subnets : List SubnetConf) (ip : Option Cidr) (vni : Nat) :
    DecRes (List SubnetConf) :=
  match ip with
  | none => .ok subnets
  | some ipn =>
    match subnets with
    | [] => .ok []
    | s :: rest =>
      match s.subnetIP with
      | none => .panics
      | some sn =>
        if sn.maskLen = ipn.maskLen ∧ sn.addr = ipn.addr then
          .ok ({ s with vni := vni } :: rest)
        else
          match mergeVni rest ip vni with
          | .ok l => .ok (s :: l)
          | .err => .err
          | .panics => .panics

/-- The loop of `SetValue` over the decoded subnets: on a new network
each decoded subnet is appended freshly; otherwise only the vni is
merged onto the matching existing subnet. A nil decoded subnet pointer
is dereferenced (`s.vni`), a panic. -/
def setValueLoop (newNet : Bool) (acc : List SubnetConf) :
    List (Option SubnetConf) → DecRes (List SubnetConf)
  | [] => .ok acc
  | none :: _ => .panics
  | some s :: rest =>
    if newNet then
      setValueLoop newNet (acc ++ [⟨s.subnetIP, s.gwIP, s.vni⟩]) rest
    else
      match mergeVni acc s.subnetIP s.vni with
      | .ok acc2 => setValueLoop newNet acc2 rest
      | .err => .err
      | .panics => .panics

/-- `network.SetValue`: try the canonical decoding; on its error fall
back to the legacy bare-array decoding (with `disableDefaultGW=false`);
then replace the subnets wholesale on a new network or merge vnis
otherwise. `cur = none` models a nil `networkConfiguration` (a freshly
hydrated network). -/
def setValue (cur : Option NetConf) (v : JValue) : SetValueRes :=
  let newNet := match cur with
    | none => true
    | some c => c.subnets.isEmpty
  let apply : Option DecNc → SetValueRes := fun ncOpt =>
    match ncOpt with
    | none => .panics
    | some nc =>
      let base : List SubnetConf :=
        if newNet then [] else (cur.getD ⟨[], false⟩).subnets
      match setValueLoop newNet base nc.subnets with
      | .ok subs => .ok ⟨subs, nc.disableDefaultGW⟩
      | .err => .err
      | .panics => .panics
  match decodeNcPtr v with
  | .panics => .panics
  | .ok ncOpt => apply ncOpt
  | .err =>
    match decodeLegacyList v with
    | .err => .err
    | .panics => .panics
    | .ok subs => apply (some ⟨subs, false⟩)

/-- Modelled from the spec: one record of the legacy persisted form,
`{SubnetIP, GwIP, Vni}` with stringified CIDRs. -/
def legacyRecMarshal (s : SubnetConf) : JValue :=
  .jobj [(keySubnetIPLegacy, .jstr (cidrOptChars s.subnetIP)),
         (keyGwIPLegacy, .jstr (cidrOptChars s.gwIP)),
         (keyVniLegacy, .jnum s.vni)]

/-- Modelled from the spec: the legacy persisted form is a bare JSON
array of `{SubnetIP, GwIP, Vni}` records. -/
def legacyMarshal (subs : List SubnetConf) : JValue :=
  .jarr (subs.map legacyRecMarshal)

/-! ## Host-mode probe (`setHostMode`)

The probe's interactions with the kernel are inputs: whether the
environment variable is set, and whether each kernel step succeeds.
The function returns the resulting value of the global `hostMode`
flag, which starts out `false`. -/

structure HostModeEnv where
  envSet : Bool
  createOk : Bool
  openOk : Bool
  linkByNameOk : Bool
  moveOk : Bool
deriving DecidableEq, Repr

/-- `setHostMode`: env var forces host mode; a failure to create the probe
vxlan, open `/proc/self/ns/net`, or look the link up logs and returns with
`hostMode` untouched (still `false`); only a failed move into the
namespace sets `hostMode = true`. -/
def setHostMode (e : HostModeEnv) : Bool :=
  if e.envSet then true
  else if ¬e.createOk then false
  else if ¬e.openOk then false
  else if ¬e.linkByNameOk then false
  else if ¬e.moveOk then true
  else false

/-! ## VNI allocation (`obtainVxlanID`)

The loop's interactions with the environment — the store read (which
merges the persisted vni into the subnet through `SetValue`), the
allocator, and the atomic write — are driven by a script with one entry
per loop iteration. The state tracks the subnet's vni, the number of
datastore operations performed, and the allocator bookkeeping (ids
acquired, ids released, ids currently held). An exhausted script yields
`none` (the code would keep looping, demanding more environment events). -/

inductive WriteRes where
  | ok
  | keyModified
  | otherErr
deriving DecidableEq, Repr

structure IterEvent where
  getOk : Bool
  readVni : Nat
  allocOk : Bool
  allocId : Nat
  writeRes : WriteRes
deriving DecidableEq, Repr

inductive ObtainOutcome where
  | success
  | getErr
  | allocErr
  | writeErr
  | noStoreErr
deriving DecidableEq, Repr

structure ObtainState where
  vni : Nat
  storeOps : Nat
  acquired : List Nat
  released : List Nat
  held : List Nat
deriving DecidableEq, Repr

/-- The `for` loop of `obtainVxlanID`: re-read from the store (merging
the stored vni via `SetValue`); if still 0, get a fresh id, assign it,
and write back atomically; on `KeyModified` release the id, reset the
vni to 0 and loop again; on another write error release, reset and
return the error; otherwise return success. -/
def obtainLoop : List IterEvent → ObtainState → Option (ObtainOutcome × ObtainState)
  | [], _ => none
  | e :: rest, st =>
    if ¬ e.getOk then some (.getErr, { st with storeOps := st.storeOps + 1 })
    else
      let st1 : ObtainState := { st with storeOps := st.storeOps + 1, vni := e.readVni }
      if e.readVni = 0 then
        if ¬ e.allocOk then some (.allocErr, st1)
        else
          let st2 : ObtainState :=
            { st1 with vni := e.allocId, storeOps := st1.storeOps + 1,
                       acquired := st1.acquired ++ [e.allocId],
                       held := st1.held ++ [e.allocId] }
          match e.writeRes with
          | .ok => some (.success, st2)
          | .keyModified =>
            obtainLoop rest
              { st2 with vni := 0, released := st2.released ++ [e.allocId],
                         held := st.held }
          | .otherErr =>
            some (.writeErr,
              { st2 with vni := 0, released := st2.released ++ [e.allocId],
                         held := st.held })
      else some (.success, st1)

/-- `obtainVxlanID`: immediate success when the subnet's vni is already
non-zero (before even looking at the store); an error when no datastore
is configured; otherwise the CAS loop. -/
def obtainVxlanID (storeConfigured : Bool) (v0 : Nat) (script : List IterEvent) :
    Option (ObtainOutcome × ObtainState) :=
  if v0 ≠ 0 then some (.success, ⟨v0, 0, [], [], []⟩)
  else if ¬ storeConfigured then some (.noStoreErr, ⟨v0, 0, [], [], []⟩)
  else obtainLoop script ⟨v0, 0, [], [], []⟩

/-! ## VNI release (`releaseVxlanID`) -/

inductive DeleteRes where
  | ok
  | keyModified
  | keyNotFound
  | otherErr
deriving DecidableEq, Repr

inductive RelOutcome where
  | success
  | errNoStore
  | errDelete
deriving DecidableEq, Repr

structure RelResult where
  outcome : RelOutcome
  vnis : List Nat
  released : List Nat
deriving DecidableEq, Repr

/-- `releaseVxlanID`: an error when no datastore is configured; a no-op
success when the network has no subnets; the atomic delete's
`KeyModified`/`KeyNotFound` are treated as success and the function
returns right there (without touching the subnets); only a plainly
successful delete is followed by releasing every subnet's vni to the
allocator and zeroing it. -/
def releaseVxlanID (storeConfigured : Bool) (delRes : DeleteRes) (vnis : List Nat) :
    RelResult :=
  if ¬ storeConfigured then ⟨.errNoStore, vnis, []⟩
  else if vnis.isEmpty then ⟨.success, vnis, []⟩
  else
    match delRes with
    | .keyModified => ⟨.success, vnis, []⟩
    | .keyNotFound => ⟨.success, vnis, []⟩
    | .otherErr => ⟨.errDelete, vnis, []⟩
    | .ok => ⟨.success, vnis.map (fun _ => 0), vnis⟩

/-! ## `CreateNetwork` -/

/-- One `driverapi.IPAMData` entry: the pool and its gateway. -/
structure IPAMData where
  pool : Option Cidr
  gateway : Option Cidr
deriving DecidableEq, Repr

/-- The part of a `network` that `CreateNetwork` registers. -/
structure NetworkModel where
  subnets : List SubnetConf
  disableDefaultGW : Bool
deriving DecidableEq, Repr

inductive CreateRes where
  | ok
  | errInvalidId
  | errConfigure
  | errStore
deriving DecidableEq, Repr

/-- `driver.CreateNetwork`: an empty id is rejected first; then the lazy
`configure`; then a subnet per ipv4 pool with `{subnetIP=pool,
gwIP=gateway, vni=0}`; a failed `writeToStore` aborts without touching
the registry; success registers the network (`addNetwork` overwrites any
entry with the same id — modelled by consing, with lookups taking the
first match). `disableGwOpt` is the presence of the `DisableDefaultGW`
generic option. -/
def createNetwork (cfgOk writeOk : Bool)
    (registry : List (List Char × NetworkModel)) (id : List Char)
    (disableGwOpt : Bool) (pools : List IPAMData) :
    CreateRes × List (List Char × NetworkModel) :=
  if id = [] then (.errInvalidId, registry)
  else if ¬ cfgOk then (.errConfigure, registry)
  else
    let n : NetworkModel :=
      ⟨pools.map (fun p => ⟨p.pool, p.gateway, 0⟩), disableGwOpt⟩
    if ¬ writeOk then (.errStore, registry)
    else (.ok, (id, n) :: registry)

/-! ## Neighbor-miss watcher (`watchMiss`)

`net.IP` is a byte slice; `To16` returns a 16-byte form for both 4-byte
and 16-byte inputs and nil otherwise, exactly as in Go's `net` package. -/

def ipTo16 (ip : List Nat) : Option (List Nat) :=
  if ip.length = 4 then
    some ([0, 0, 0, 0, 0, 0, 0, 0, 0, 0, 255, 255] ++ ip)
  else if ip.length = 16 then some ip
  else none

def RTM_NEWNEIGH : Nat := 28
def RTM_GETNEIGH : Nat := 30
def NUD_INCOMPLETE : Nat := 1
def NUD_STALE : Nat := 4

structure NeighMsg where
  headerType : Nat
  deserializeOk : Bool
  ip : List Nat
  state : Nat
deriving DecidableEq, Repr

inductive MissAction where
  | skippedType
  | skippedDeserialize
  | skippedIP
  | skippedState
  | resolveFailed
  | peerAdded
deriving DecidableEq, Repr

/-- Per-message body of `watchMiss`: filter on the message type,
deserialize, skip when `neigh.IP.To16() != nil`, skip when the state
carries neither STALE nor INCOMPLETE, resolve against the PeerDB and
program the forwarding entry via `peerAdd` (marked as from-miss). -/
def processMiss (resolveOk : Bool) (m : NeighMsg) : MissAction :=
  if m.headerType ≠ RTM_GETNEIGH ∧ m.headerType ≠ RTM_NEWNEIGH then .skippedType
  else if ¬ m.deserializeOk then .skippedDeserialize
  else if (ipTo16 m.ip).isSome then .skippedIP
  else if m.state &&& (NUD_STALE ||| NUD_INCOMPLETE) = 0 then .skippedState
  else if ¬ resolveOk then .resolveFailed
  else .peerAdded

/-! ## Join/leave lifecycle

`joinSandbox` runs `initSandbox` through the per-network once guard (the
successful path installs the sandbox); `leaveSandbox` decrements the
join count and, exactly when it reaches 0, rearms the guards and
destroys the sandbox. -/

structure NetLife where
  joinCnt : Int
  sandboxUp : Bool
  guardFired : Bool
deriving DecidableEq, Repr

def incEndpointCount (st : NetLife) : NetLife :=
  { st with joinCnt := st.joinCnt + 1 }

def joinSandbox (st : NetLife) : NetLife :=
  if st.guardFired then st
  else { st with guardFired := true, sandboxUp := true }

def leaveSandbox (st : NetLife) : NetLife :=
  if st.joinCnt - 1 ≠ 0 then { st with joinCnt := st.joinCnt - 1 }
  else { joinCnt := st.joinCnt - 1, guardFired := false, sandboxUp := false }

inductive LifeStep where
  | inc
  | join
  | leave
deriving DecidableEq, Repr

def lifeStepRun (st : NetLife) : LifeStep → NetLife
  | .inc => incEndpointCount st
  | .join => joinSandbox st
  | .leave => leaveSandbox st

def lifeRun (steps : List LifeStep) (st : NetLife) : NetLife :=
  steps.foldl lifeStepRun st

def lifeInit : NetLife := ⟨0, false, false⟩

/-- The endpoint-level join hook: `joinSandbox` then `incEndpointCount`. -/
def joinOp (st : NetLife) : NetLife := incEndpointCount (joinSandbox st)

/-- The lifecycle invariant: non-negative join count, sandbox present
exactly when endpoints are joined, guard armed exactly with the sandbox. -/
def lifeInv (st : NetLife) : Prop :=
  0 ≤ st.joinCnt ∧ (st.sandboxUp ↔ 0 < st.joinCnt) ∧ st.guardFired = st.sandboxUp

instance (st : NetLife) : Decidable (lifeInv st) := by
  unfold lifeInv; infer_instance

/-! ## `destroySandbox` -/

structure SandboxModel where
  interfaces : List Nat
deriving DecidableEq, Repr

structure SubnetDevs where
  vxlanName : List Char
  brName : List Char
deriving DecidableEq, Repr

structure NetDevState where
  sbox : Option SandboxModel
  subnets : List SubnetDevs
deriving DecidableEq, Repr

inductive Effect where
  | removeIface (i : Nat)
  | removeFilters (chain : List Char) (br : List Char)
  | deleteVxlan (name : List Char)
  | removeNetworkChain (chain : List Char)
  | destroySbox
deriving DecidableEq, Repr

/-- `destroySandbox`: everything is guarded by `sbox != nil`; inside the
guard, remove every interface the sandbox reports, per subnet remove
host-mode filters and delete a named vxlan device, in host mode remove
the network chain, destroy the sandbox and clear the field. -/
def destroySandbox (hostMode : Bool) (nid12 : List Char) (st : NetDevState) :
    NetDevState × List Effect :=
  match st.sbox with
  | none => (st, [])
  | some sb =>
    let ifaceEffs := sb.interfaces.map Effect.removeIface
    let subnetEffs := st.subnets.foldr (fun s acc =>
      (if hostMode then [Effect.removeFilters nid12 s.brName] else []) ++
      (if s.vxlanName ≠ [] then [Effect.deleteVxlan s.vxlanName] else []) ++ acc) []
    let chainEffs := if hostMode then [Effect.removeNetworkChain nid12] else []
    ({ st with sbox := none },
     ifaceEffs ++ subnetEffs ++ chainEffs ++ [Effect.destroySbox])

/-- Well-formedness used by the round-trip claim: every subnet has
non-nil CIDRs whose rendering parses back to itself (this is exactly
"parseable CIDRs": `types.ParseCIDR` keeps host bits, so rendering is
left-inverse on every in-range CIDR). -/
def parseableSubnets (l : List SubnetConf) : Prop :=
  ∀ s ∈ l, ∃ a b, s.subnetIP = some a ∧ parseCIDR (cidrChars a) = some a ∧
    s.gwIP = some b ∧ parseCIDR (cidrChars b) = some b

/-! ## Theorems -/

set_option maxRecDepth 10000

/-- Decoding inverts encoding on a single subnet whose CIDRs render
and parse back unchanged. -/
theorem subnetUnmarshal_marshal (v : Nat) (a b : Cidr)
    (hpa : parseCIDR (cidrChars a) = some a)
    (hpb : parseCIDR (cidrChars b) = some b) :
    subnetUnmarshalJSON (subnetMarshalJSON ⟨some a, some b, v⟩) =
      .ok ⟨some a, some b, v⟩ := by
  simp [subnetMarshalJSON, subnetUnmarshalJSON, cidrOptChars, jlookup, hpa, hpb,
    (show keyGwIP ≠ keyVni by decide),
    (show keySubnetIP ≠ keyVni by decide),
    (show keyGwIP ≠ keySubnetIP by decide)]

/-- Element-wise decoding of the canonical subnets array round-trips. -/
theorem decodeSubnetPtrListAux_marshal (l : List SubnetConf)
    (h : parseableSubnets l) :
    decodeSubnetPtrListAux (l.map subnetMarshalJSON) =
      (.ok (l.map some), l.map some) := by
  induction l with
  | nil => rfl
  | cons s rest ih =>
    obtain ⟨a, b, hsa, hpa, hgb, hpb⟩ := h s (List.mem_cons_self s rest)
    have hs : s = ⟨some a, some b, s.vni⟩ := by
      obtain ⟨x, y, z⟩ := s; simp_all
    have hub : subnetUnmarshalJSON (subnetMarshalJSON s) = .ok s := by
      rw [hs]; exact subnetUnmarshal_marshal s.vni a b hpa hpb
    have ihr := ih (fun t ht => h t (List.mem_cons_of_mem s ht))
    simp only [subnetMarshalJSON] at hub
    simp [decodeSubnetPtrListAux, subnetMarshalJSON, hub, ihr]

/-- The fresh-network arm of `SetValue`'s loop rebuilds exactly the
decoded subnets, in order. -/
theorem setValueLoop_fresh (l : List SubnetConf) (acc : List SubnetConf) :
    setValueLoop true acc (l.map some) = .ok (acc ++ l) := by
  induction l generalizing acc with
  | nil => simp [setValueLoop]
  | cons s rest ih =>
    simp only [List.map_cons, setValueLoop, if_true]
    rw [show (⟨s.subnetIP, s.gwIP, s.vni⟩ : SubnetConf) = s from rfl, ih]
    simp

/-- Decoding inverts the legacy encoding of a single record. -/
theorem decodeLegacyRec_marshal (s : SubnetConf) (a b : Cidr)
    (hsa : s.subnetIP = some a) (hpa : parseCIDR (cidrChars a) = some a)
    (hgb : s.gwIP = some b) (hpb : parseCIDR (cidrChars b) = some b) :
    decodeLegacyRec (legacyRecMarshal s) = .ok (some s) := by
  have hs : s = ⟨some a, some b, s.vni⟩ := by
    obtain ⟨x, y, z⟩ := s; simp_all
  rw [hs]
  simp [legacyRecMarshal, decodeLegacyRec, cidrOptChars, jlookup, hpa, hpb,
    (show keySubnetIPLegacy ≠ keyGwIPLegacy by decide),
    (show keySubnetIPLegacy ≠ keyVniLegacy by decide),
    (show keyGwIPLegacy ≠ keyVniLegacy by decide)]

/-- Decoding inverts the legacy encoding of the whole array. -/
theorem decodeLegacyList_marshal (l : List SubnetConf)
    (h : parseableSubnets l) :
    decodeLegacyList (legacyMarshal l) = .ok (l.map some) := by
  have : ∀ m : List SubnetConf, parseableSubnets m →
      (m.map legacyRecMarshal).foldr legacyStep (.ok []) = .ok (m.map some) := by
    intro m hm
    induction m with
    | nil => rfl
    | cons s rest ih =>
      obtain ⟨a, b, hsa, hpa, hgb, hpb⟩ := hm s (List.mem_cons_self s rest)
      have hrec := decodeLegacyRec_marshal s a b hsa hpa hgb hpb
      have ihr := ih (fun t ht => hm t (List.mem_cons_of_mem s ht))
      simp [legacyStep, hrec, ihr]
  exact this l h

/-- C4: on a freshly hydrated network (nil configuration), decoding the
canonical JSON encoding of any configuration with parseable CIDRs
yields the configuration back — same `disableDefaultGW`, same subnet
order, same `subnetIP`, `gwIP` and `vni` — and decoding the legacy
bare-array encoding of the same subnets yields them with
`disableDefaultGW = false`. -/
theorem setValue_roundtrip (cfg : NetConf) (h : parseableSubnets cfg.subnets) :
    setValue none (ncMarshalJSON cfg) = .ok cfg ∧
    setValue none (legacyMarshal cfg.subnets) = .ok ⟨cfg.subnets, false⟩ := by
  obtain ⟨subs, dgw⟩ := cfg
  simp only at h
  constructor
  · have hlist := decodeSubnetPtrListAux_marshal subs h
    simp [setValue, ncMarshalJSON, decodeNcPtr, ncUnmarshalJSON, jlookup,
      decodeSubnetPtrList, hlist, setValueLoop_fresh,
      (show keyDisableDefaultGW ≠ keySubnets by decide)]
  · have hlist := decodeLegacyList_marshal subs h
    simp [setValue, legacyMarshal, decodeNcPtr, ncUnmarshalJSON] at hlist ⊢
    simp [hlist, setValueLoop_fresh]

/-- C4 witness: the one-subnet configuration 10.0.0.0/24 with gateway
10.0.0.1/24 and vni 7 round-trips through the canonical encoding. -/
theorem setValue_roundtrip_witness :
    setValue none (ncMarshalJSON
      ⟨[⟨some ⟨167772160, 24⟩, some ⟨167772161, 24⟩, 7⟩], true⟩) =
      .ok ⟨[⟨some ⟨167772160, 24⟩, some ⟨167772161, 24⟩, 7⟩], true⟩ :=
  (setValue_roundtrip ⟨[⟨some ⟨167772160, 24⟩, some ⟨167772161, 24⟩, 7⟩], true⟩
    (by
      intro s hs
      simp only [List.mem_singleton] at hs
      subst hs
      exact ⟨⟨167772160, 24⟩, ⟨167772161, 24⟩, rfl, by decide, rfl, by decide⟩)).1

/-- Invariant of the CAS loop: starting from a state holding no
allocator ids (and with the books balanced), any returning run keeps
`acquired = released ++ held`; a success holds at most the winning id,
and any error path holds nothing with the vni reset to 0. -/
theorem obtainLoop_inv (script : List IterEvent) :
    ∀ st out st', st.held = [] → st.acquired = st.released → st.vni = 0 →
    (∀ e ∈ script, e.allocId ≠ 0) →
    obtainLoop script st = some (out, st') →
    st'.acquired = st'.released ++ st'.held ∧
    (out = .success → (∀ x ∈ st'.held, x = st'.vni) ∧ st'.vni ≠ 0) ∧
    (out ≠ .success → st'.held = [] ∧ st'.vni = 0) := by
  induction script with
  | nil =>
    intro st out st' _ _ _ _ h
    simp [obtainLoop] at h
  | cons e rest ih =>
    intro st out st' hheld hacq hvni hns h
    rw [obtainLoop] at h
    by_cases hg : e.getOk = true
    · simp only [hg, not_true_eq_false, if_false] at h
      by_cases hr : e.readVni = 0
      · simp only [hr, if_true] at h
        by_cases ha : e.allocOk = true
        · simp only [ha, not_true_eq_false, if_false] at h
          cases hw : e.writeRes with
          | ok =>
            rw [hw] at h
            injection h with h'
            injection h' with h1 h2
            subst h1; subst h2
            refine ⟨by simp [hheld, hacq], fun _ => ⟨by simp [hheld], ?_⟩, by simp⟩
            exact hns e (List.mem_cons_self e rest)
          | keyModified =>
            rw [hw] at h
            exact ih _ _ _ (by simp [hheld]) (by simp [hacq]) rfl
              (fun x hx => hns x (List.mem_cons_of_mem e hx)) h
          | otherErr =>
            rw [hw] at h
            injection h with h'
            injection h' with h1 h2
            subst h1; subst h2
            exact ⟨by simp [hheld, hacq], by simp, fun _ => ⟨hheld, rfl⟩⟩
        · simp only [ha, not_false_eq_true, if_true] at h
          injection h with h'
          injection h' with h1 h2
          subst h1; subst h2
          exact ⟨by simp [hheld, hacq], by simp, fun _ => ⟨hheld, rfl⟩⟩
      · simp only [hr, if_false] at h
        injection h with h'
        injection h' with h1 h2
        subst h1; subst h2
        exact ⟨by simp [hheld, hacq], fun _ => ⟨by simp [hheld], hr⟩, by simp⟩
    · simp only [hg, not_false_eq_true, if_true] at h
      injection h with h'
      injection h' with h1 h2
      subst h1; subst h2
      exact ⟨by simp [hheld, hacq], by simp, fun _ => ⟨hheld, hvni⟩⟩

/-- C1: a subnet with a non-zero vni returns success immediately with
zero datastore operations; with a vni of 0 and no datastore an error is
returned; with a datastore, any returning run of the CAS loop keeps the
allocator books balanced (`acquired = released ++ held`), a success ends
with a non-zero vni and holds no id other than that vni, and an error
ends holding no id with the vni reset to 0. A `KeyModified` write
releases the freshly acquired id, resets the vni to 0 and restarts the
loop; any other write error releases, resets and returns. -/
theorem obtainVxlanID_correct (b : Bool) (v0 : Nat) (script : List IterEvent)
    (hAlloc : ∀ e ∈ script, e.allocId ≠ 0) :
    (v0 ≠ 0 → obtainVxlanID b v0 script = some (.success, ⟨v0, 0, [], [], []⟩)) ∧
    (obtainVxlanID false 0 script = some (.noStoreErr, ⟨0, 0, [], [], []⟩)) ∧
    (∀ out st, obtainVxlanID true 0 script = some (out, st) →
      st.acquired = st.released ++ st.held ∧
      (out = .success → (∀ x ∈ st.held, x = st.vni) ∧ st.vni ≠ 0) ∧
      (out ≠ .success → st.held = [] ∧ st.vni = 0)) ∧
    (∀ e rest st, e.getOk = true → e.readVni = 0 → e.allocOk = true →
      e.writeRes = .keyModified →
      obtainLoop (e :: rest) st =
        obtainLoop rest
          { st with vni := 0, storeOps := st.storeOps + 2,
                    acquired := st.acquired ++ [e.allocId],
                    released := st.released ++ [e.allocId] }) ∧
    (∀ e rest st, e.getOk = true → e.readVni = 0 → e.allocOk = true →
      e.writeRes = .otherErr →
      obtainLoop (e :: rest) st =
        some (.writeErr,
          { st with vni := 0, storeOps := st.storeOps + 2,
                    acquired := st.acquired ++ [e.allocId],
                    released := st.released ++ [e.allocId] })) := by
  refine ⟨?_, ?_, ?_, ?_, ?_⟩
  · intro h; simp [obtainVxlanID, h]
  · simp [obtainVxlanID]
  · intro out st h
    simp only [obtainVxlanID, ne_eq, not_true_eq_false, if_false,
      not_false_eq_true, if_true] at h
    exact obtainLoop_inv script ⟨0, 0, [], [], []⟩ out st rfl rfl rfl hAlloc h
  · intro e rest st h1 h2 h3 h4
    rw [obtainLoop]
    simp [h1, h2, h3, h4]
  · intro e rest st h1 h2 h3 h4
    rw [obtainLoop]
    simp [h1, h2, h3, h4]

/-- C1 witness: a two-iteration run — the first write loses the CAS
race with `KeyModified` (id 5 is released), the second wins with id 6 —
returns success holding exactly the winning vni; and a subnet with
vni 3 short-circuits without any datastore operation. -/
theorem obtainVxlanID_correct_witness :
    obtainVxlanID true 3
      [⟨true, 0, true, 5, .keyModified⟩, ⟨true, 0, true, 6, .ok⟩] =
      some (.success, ⟨3, 0, [], [], []⟩) :=
  (obtainVxlanID_correct true 3
    [⟨true, 0, true, 5, .keyModified⟩, ⟨true, 0, true, 6, .ok⟩]
    (by decide)).1 (by decide)

/-- C2 counterexample: with one subnet holding vni 42, a nil datastore
makes `releaseVxlanID` return an error (not a no-op success), and a
`KeyModified` delete returns success while leaving the vni at 42,
unreleased — refuting both the no-datastore clause and the claim that
every successful return releases and zeroes the VNIs. -/
theorem releaseVxlanID_claim_false :
    (releaseVxlanID false DeleteRes.ok [42]).outcome ≠ RelOutcome.success ∧
    (releaseVxlanID true DeleteRes.keyModified [42]).outcome = RelOutcome.success ∧
    (releaseVxlanID true DeleteRes.keyModified [42]).vnis = [42] ∧
    (releaseVxlanID true DeleteRes.keyModified [42]).released = [] := by decide

/-- C2 amended: `releaseVxlanID` returns an error when no datastore is
configured; with a datastore it is a no-op success when there are no
subnets; with subnets, `KeyModified`/`KeyNotFound` from the atomic
delete are treated as success but leave every vni untouched and release
nothing; only a plainly successful delete releases every subnet's VNI to
the allocator and zeroes it; any other delete error is returned with the
vnis untouched. -/
theorem releaseVxlanID_amended (storeCfg : Bool) (delRes : DeleteRes)
    (vnis : List Nat) :
    (storeCfg = false →
      releaseVxlanID storeCfg delRes vnis = ⟨.errNoStore, vnis, []⟩) ∧
    (storeCfg = true → vnis = [] →
      releaseVxlanID storeCfg delRes vnis = ⟨.success, [], []⟩) ∧
    (storeCfg = true → vnis ≠ [] →
      (delRes = .keyModified ∨ delRes = .keyNotFound) →
      releaseVxlanID storeCfg delRes vnis = ⟨.success, vnis, []⟩) ∧
    (storeCfg = true → vnis ≠ [] → delRes = .ok →
      releaseVxlanID storeCfg delRes vnis =
        ⟨.success, vnis.map (fun _ => 0), vnis⟩) ∧
    (storeCfg = true → vnis ≠ [] → delRes = .otherErr →
      releaseVxlanID storeCfg delRes vnis = ⟨.errDelete, vnis, []⟩) := by
  refine ⟨?_, ?_, ?_, ?_, ?_⟩ <;> intro h1
  · subst h1; simp [releaseVxlanID]
  · intro h2; subst h1 h2; simp [releaseVxlanID]
  · intro h2 h3; subst h1
    rcases h3 with h3 | h3 <;> subst h3 <;>
      simp [releaseVxlanID, List.isEmpty_iff, h2]
  · intro h2 h3; subst h1 h3; simp [releaseVxlanID, List.isEmpty_iff, h2]
  · intro h2 h3; subst h1 h3; simp [releaseVxlanID, List.isEmpty_iff, h2]

/-- C2 amended, witness: delete succeeds on a one-subnet network with
vni 7: success, the vni zeroed, the id released. -/
theorem releaseVxlanID_amended_witness :
    releaseVxlanID true DeleteRes.ok [7] = ⟨.success, [0], [7]⟩ :=
  (releaseVxlanID_amended true DeleteRes.ok [7]).2.2.2.1 rfl (by decide) rfl

/-- C3 counterexample: the invariant is not preserved by every sequence
of the three primitives — a single `leaveSandbox` from the initial state
drives `joinCnt` to −1, and a bare `incEndpointCount` yields a state
with `joinCnt = 1` and no sandbox. -/
theorem lifecycle_claim_false :
    (lifeRun [.leave] lifeInit).joinCnt = -1 ∧
    ¬ lifeInv (lifeRun [.leave] lifeInit) ∧
    ¬ lifeInv (lifeRun [.inc] lifeInit) := by decide

/-- C3 amended: the invariant (`joinCnt ≥ 0`, sandbox present iff
`joinCnt > 0`, guard armed with the sandbox) holds initially, is
preserved by the endpoint join operation (`joinSandbox` then
`incEndpointCount`), and is preserved by `leaveSandbox` whenever
`joinCnt > 0` beforehand — i.e. by every sequence in which leaves never
outnumber joins; an unmatched leave at `joinCnt = 0` breaks it. -/
theorem lifecycle_inv_preserved (st : NetLife) (h : lifeInv st) :
    lifeInv lifeInit ∧ lifeInv (joinOp st) ∧
    (0 < st.joinCnt → lifeInv (leaveSandbox st)) := by
  obtain ⟨c, sb, g⟩ := st
  obtain ⟨h1, h2, h3⟩ := h
  simp only [lifeInv] at *
  refine ⟨by decide, ?_, ?_⟩
  · cases g <;> cases sb <;>
      simp_all [joinOp, joinSandbox, incEndpointCount] <;> omega
  · intro hc
    have hsb : sb = true := h2.mpr hc
    subst hsb
    subst h3
    unfold leaveSandbox
    by_cases hone : c - 1 = 0 <;> simp [hone]
    all_goals omega

/-- C3 amended, witness: one join then one leave from the initial
state keeps the invariant. -/
theorem lifecycle_inv_witness : lifeInv (joinOp lifeInit) :=
  (lifecycle_inv_preserved lifeInit (by decide)).2.1

/-- C5: the address filter `neigh.IP.To16() != nil` skips a 4-byte IPv4
address too (`To16` maps it to its 16-byte form, which is non-nil), so
an RTM_NEWNEIGH message for 10.0.0.5 in STALE state with a resolvable
peer is dropped instead of being resolved and programmed via `peerAdd`. -/
theorem watchMiss_skips_ipv4 :
    processMiss true ⟨RTM_NEWNEIGH, true, [10, 0, 0, 5], NUD_STALE⟩ =
      MissAction.skippedIP ∧
    processMiss true ⟨RTM_NEWNEIGH, true, [10, 0, 0, 5], NUD_STALE⟩ ≠
      MissAction.peerAdded := by decide

/-- C6 counterexample: a failure to create the probe device, or to open
the namespace file, leaves `hostMode = false` — the probe does not fall
back to host mode on those failures. -/
theorem setHostMode_claim_false :
    setHostMode ⟨false, false, true, true, true⟩ = false ∧
    setHostMode ⟨false, true, false, true, true⟩ = false := by decide

/-- C6 amended: `setHostMode` yields `hostMode = true` exactly when the
`_OVERLAY_HOST_MODE` environment variable is non-empty, or when the
probe device is created, the namespace file opened and the link looked
up successfully but the move into the namespace fails; every earlier
failure returns with `hostMode` still false. -/
theorem setHostMode_amended (e : HostModeEnv) :
    setHostMode e = true ↔
      e.envSet = true ∨
      (e.createOk = true ∧ e.openOk = true ∧ e.linkByNameOk = true ∧
       e.moveOk = false) := by
  obtain ⟨a, b, c, d, f⟩ := e
  cases a <;> cases b <;> cases c <;> cases d <;> cases f <;> decide

/-- C7 counterexample: `getSubnetforIP(nil)` does not return "not
found" on a network with one subnet — the first loop iteration
dereferences the nil `*net.IPNet` (`ip.Mask.Size()`), a runtime panic. -/
theorem getSubnetforIP_claim_false :
    getSubnetforIP [⟨some ⟨167772160, 24⟩, some ⟨167772161, 24⟩, 0⟩] none =
      LookupRes.panics := by decide

/-- C7 amended: `getMatchingSubnet(nil)` returns "not found" for every
network; `getSubnetforIP(nil)` returns "not found" only when the
network has no subnets, and panics as soon as there is at least one. -/
theorem subnet_lookup_nil_amended (subnets : List SubnetConf) :
    getMatchingSubnet subnets none = .notFound ∧
    (subnets = [] → getSubnetforIP subnets none = .notFound) ∧
    (subnets ≠ [] → getSubnetforIP subnets none = .panics) := by
  refine ⟨?_, ?_, ?_⟩
  · cases subnets with
    | nil => rfl
    | cons s rest => simp [getMatchingSubnet]
  · intro h; subst h; rfl
  · intro h
    cases subnets with
    | nil => exact absurd rfl h
    | cons s rest =>
      cases hs : s.subnetIP <;> simp [getSubnetforIP, hs]

/-- C7 amended, witness: concrete empty and one-subnet networks. -/
theorem subnet_lookup_nil_witness :
    getSubnetforIP [] none = LookupRes.notFound ∧
    getSubnetforIP [⟨some ⟨167772160, 24⟩, some ⟨167772161, 24⟩, 5⟩] none =
      LookupRes.panics :=
  ⟨(subnet_lookup_nil_amended []).2.1 rfl,
   (subnet_lookup_nil_amended
      [⟨some ⟨167772160, 24⟩, some ⟨167772161, 24⟩, 5⟩]).2.2 (by decide)⟩

/-- C8: `CreateNetwork` rejects an empty id first (registry untouched);
a `configure` failure aborts (registry untouched); a persistence failure
aborts with an error and the network is not registered; on success the
network is registered with exactly one subnet per ipv4 pool, each
`{subnetIP = pool, gwIP = gateway, vni = 0}`. -/
theorem createNetwork_correct (cfgOk writeOk : Bool)
    (reg : List (List Char × NetworkModel)) (id : List Char)
    (dgw : Bool) (pools : List IPAMData) :
    (id = [] →
      createNetwork cfgOk writeOk reg id dgw pools = (.errInvalidId, reg)) ∧
    (id ≠ [] → cfgOk = false →
      createNetwork cfgOk writeOk reg id dgw pools = (.errConfigure, reg)) ∧
    (id ≠ [] → cfgOk = true → writeOk = false →
      createNetwork cfgOk writeOk reg id dgw pools = (.errStore, reg)) ∧
    (id ≠ [] → cfgOk = true → writeOk = true →
      createNetwork cfgOk writeOk reg id dgw pools =
        (.ok, (id, ⟨pools.map (fun p => ⟨p.pool, p.gateway, 0⟩), dgw⟩) :: reg)) := by
  refine ⟨?_, ?_, ?_, ?_⟩
  · intro h; simp [createNetwork, h]
  · intro h1 h2; subst h2; simp [createNetwork, h1]
  · intro h1 h2 h3; subst h2 h3; simp [createNetwork, h1]
  · intro h1 h2 h3; subst h2 h3; simp [createNetwork, h1]

/-- C8 witness: a store failure leaves the registry unchanged, and a
successful create registers the one-pool network with vni 0. -/
theorem createNetwork_correct_witness :
    createNetwork true false [] ['n'] false
      [⟨some ⟨167772160, 24⟩, some ⟨167772161, 24⟩⟩] = (.errStore, []) ∧
    createNetwork true true [] ['n'] false
      [⟨some ⟨167772160, 24⟩, some ⟨167772161, 24⟩⟩] =
      (.ok, [(['n'], ⟨[⟨some ⟨167772160, 24⟩, some ⟨167772161, 24⟩, 0⟩], false⟩)]) :=
  ⟨(createNetwork_correct true false [] ['n'] false _).2.2.1 (by decide) rfl rfl,
   (createNetwork_correct true true [] ['n'] false _).2.2.2 (by decide) rfl rfl⟩

/-- C9: `SetValue` is not total — an object without a boolean
`disableDefaultGW` (such as `{}`) panics in
`networkConfiguration.UnmarshalJSON`, whether the network is freshly
hydrated or already populated, and a subnet object with a missing or
non-numeric `vni`, or a non-string `gwIP` or `subnetIP`, panics in
`subnet.UnmarshalJSON`. -/
theorem setValue_panics :
    setValue none (.jobj []) = .panics ∧
    setValue (some ⟨[], false⟩) (.jobj []) = .panics ∧
    setValue none (.jobj [(keyDisableDefaultGW, .jbool false),
      (keySubnets, .jarr [.jobj []])]) = .panics ∧
    setValue none (.jobj [(keyDisableDefaultGW, .jbool false),
      (keySubnets, .jarr [.jobj [(keyVni, .jstr ['x'])]])]) = .panics ∧
    setValue none (.jobj [(keyDisableDefaultGW, .jbool false),
      (keySubnets, .jarr [.jobj [(keyVni, .jnum 1),
        (keyGwIP, .jnum 2)]])]) = .panics ∧
    setValue none (.jobj [(keyDisableDefaultGW, .jbool false),
      (keySubnets, .jarr [.jobj [(keyVni, .jnum 1),
        (keyGwIP, .jstr (cidrChars ⟨167772161, 24⟩)),
        (keySubnetIP, .jnum 3)]])]) = .panics := by decide

/-- C10: with a nil sandbox handle, `destroySandbox` performs no
effect whatsoever — no interface removal, no vxlan deletion, no filter
or chain removal, no sandbox destruction — and returns the network
state unchanged. -/
theorem destroySandbox_noop (hostMode : Bool) (nid12 : List Char)
    (st : NetDevState) (h : st.sbox = none) :
    destroySandbox hostMode nid12 st = (st, []) := by
  obtain ⟨sb, subs⟩ := st
  cases sb with
  | none => rfl
  | some s => simp at h

/-- C10 witness: a host-mode network with one subnet carrying device
names but no sandbox: teardown is a no-op. -/
theorem destroySandbox_noop_witness :
    destroySandbox true ['a', 'b'] ⟨none, [⟨['v', 'x'], ['o', 'v']⟩]⟩ =
      (⟨none, [⟨['v', 'x'], ['o', 'v']⟩]⟩, []) :=
  destroySandbox_noop true ['a', 'b'] ⟨none, [⟨['v', 'x'], ['o', 'v']⟩]⟩ rfl

end Overlay
